import Mathlib

/-!
Verification of core definitions of the rgb-core repository, shallowly
embedded in Lean 4.  Machine integers are modelled as `Nat` with explicit
bounds; the generic parameter `I ∈ {u8, u16, u32, u64}` of `Occurences<I>`
is modelled by the `Bits` enumeration of the source (`src/rgb/schema/types.rs`),
whose `max_value` gives `I::MAX`.  Fallible Rust code returns explicit result
types; a reachable Rust `panic!`/`expect` is modelled by a dedicated
`panicked` constructor.
-/

namespace RgbCore

/-- Bit widths of the supported unsigned integer types
(`Bits` in `src/rgb/schema/types.rs`). -/
inductive Bits
  | bit8
  | bit16
  | bit32
  | bit64
deriving DecidableEq

/-- `Bits::max_value` from `src/rgb/schema/types.rs`: the maximal value of the
corresponding unsigned integer type (`u8::MAX` … `u64::MAX`). -/
def Bits.max_value : Bits → Nat
  | .bit8 => 255
  | .bit16 => 65535
  | .bit32 => 4294967295
  | .bit64 => 18446744073709551615

theorem Bits.le_max_value (wd : Bits) : 255 ≤ wd.max_value := by
  cases wd <;> decide

theorem Bits.max_value_lt (wd : Bits) : wd.max_value < 256 ^ 8 := by
  cases wd <;> decide

/-- `Occurences<I>` from `src/rgb/schema/types.rs`.  The stored bound of type
`I` is modelled as a `Nat`; the Rust typing invariant `max ≤ I::MAX` is
expressed separately by `occInBounds`. -/
inductive Occurences
  | once
  | noneOrOnce
  | onceOrUpTo (max : Option Nat)
  | noneOrUpTo (max : Option Nat)
deriving DecidableEq

/-- Rust's typing guarantee that a stored `Some` bound, being a value of type
`I`, is at most `I::MAX`. -/
def occInBounds (wd : Bits) : Occurences → Bool
  | .onceOrUpTo (Option.some v) => v ≤ wd.max_value
  | .noneOrUpTo (Option.some v) => v ≤ wd.max_value
  | _ => true

/-- `Occurences::min_value` from `src/rgb/schema/types.rs`. -/
def Occurences.min_value : Occurences → Nat
  | .once => 1
  | .noneOrOnce => 0
  | .onceOrUpTo _ => 1
  | .noneOrUpTo _ => 0

/-- `Occurences::max_value` from `src/rgb/schema/types.rs`; a `None` bound
means `I::MAX`, i.e. `wd.max_value`. -/
def Occurences.max_value (wd : Bits) : Occurences → Nat
  | .once => 1
  | .noneOrOnce => 1
  | .onceOrUpTo Option.none => wd.max_value
  | .noneOrUpTo Option.none => wd.max_value
  | .onceOrUpTo (Option.some m) => m
  | .noneOrUpTo (Option.some m) => m

/-- Result of `Occurences::check`: `Ok(())`, `Err(OccurrencesError{min,max,found})`
(all three fields widened to `u128`, modelled as `Nat`), or a reached
`expect`/`panic!`. -/
inductive CheckResult
  | ok
  | err (min max found : Nat)
  | panicked
deriving DecidableEq

/-- `I::try_from(count)` for the unsigned pairs used by `check`: succeeds and
preserves the value exactly when `count ≤ I::MAX`. -/
def tryFrom (iMax count : Nat) : Option Nat :=
  if count ≤ iMax then Option.some count else Option.none

/-- Body of the `match self` in `Occurences::check`, after the conversion
`count = I::try_from(count)` produced `c`.  `origCount` is the untruncated
input used in the error payload. -/
def checkCore (occ : Occurences) (wd : Bits) (origCount c : Nat) : CheckResult :=
  match occ with
  | .once =>
    if c = 1 then CheckResult.ok
    else CheckResult.err occ.min_value (occ.max_value wd) origCount
  | .noneOrOnce =>
    if c ≤ 1 then CheckResult.ok
    else CheckResult.err occ.min_value (occ.max_value wd) origCount
  | .onceOrUpTo Option.none =>
    if 0 < c then CheckResult.ok
    else CheckResult.err occ.min_value (occ.max_value wd) origCount
  | .onceOrUpTo (Option.some mx) =>
    if 0 < c ∧ c ≤ mx then CheckResult.ok
    else CheckResult.err occ.min_value (occ.max_value wd) origCount
  | .noneOrUpTo Option.none => CheckResult.ok
  | .noneOrUpTo (Option.some mx) =>
    if c ≤ mx then CheckResult.ok
    else CheckResult.err occ.min_value (occ.max_value wd) origCount

/-- `Occurences::check` from `src/rgb/schema/types.rs`: reject counts above
`I::MAX` first (with the untruncated count in `found`), then convert to `I`
(the `expect` is modelled by `panicked`) and match on the variant. -/
def Occurences.check (occ : Occurences) (wd : Bits) (count : Nat) : CheckResult :=
  if wd.max_value < count then
    CheckResult.err occ.min_value (occ.max_value wd) count
  else
    match tryFrom wd.max_value count with
    | Option.none => CheckResult.panicked
    | Option.some c => checkCore occ wd count c

theorem Occurences.max_value_le (wd : Bits) (occ : Occurences)
    (h : occInBounds wd occ = true) : occ.max_value wd ≤ wd.max_value := by
  have h255 := Bits.le_max_value wd
  cases occ with
  | once => simp only [Occurences.max_value]; omega
  | noneOrOnce => simp only [Occurences.max_value]; omega
  | onceOrUpTo m =>
    cases m with
    | none => simp only [Occurences.max_value]; omega
    | some v =>
      simp only [occInBounds, decide_eq_true_eq] at h
      simp only [Occurences.max_value]; omega
  | noneOrUpTo m =>
    cases m with
    | none => simp only [Occurences.max_value]; omega
    | some v =>
      simp only [occInBounds, decide_eq_true_eq] at h
      simp only [Occurences.max_value]; omega

theorem check_eq_spec (wd : Bits) (occ : Occurences) (count : Nat)
    (h : occInBounds wd occ = true) :
    occ.check wd count =
      if occ.min_value ≤ count ∧ count ≤ occ.max_value wd then CheckResult.ok
      else CheckResult.err occ.min_value (occ.max_value wd) count := by
  have h255 := Bits.le_max_value wd
  have hle := Occurences.max_value_le wd occ h
  unfold Occurences.check
  by_cases hc : wd.max_value < count
  · rw [if_pos hc, if_neg (by omega)]
  · rw [if_neg hc]
    have ht : tryFrom wd.max_value count = Option.some count := by
      unfold tryFrom
      rw [if_pos (by omega)]
    rw [ht]
    show checkCore occ wd count count = _
    cases occ with
    | once =>
      simp only [checkCore, Occurences.min_value, Occurences.max_value]
      split_ifs <;> first | rfl | omega
    | noneOrOnce =>
      simp only [checkCore, Occurences.min_value, Occurences.max_value]
      split_ifs <;> first | rfl | omega
    | onceOrUpTo m =>
      cases m with
      | none =>
        simp only [checkCore, Occurences.min_value, Occurences.max_value]
        split_ifs <;> first | rfl | omega
      | some v =>
        simp only [checkCore, Occurences.min_value, Occurences.max_value]
        split_ifs <;> first | rfl | omega
    | noneOrUpTo m =>
      cases m with
      | none =>
        simp only [checkCore, Occurences.min_value, Occurences.max_value]
        split_ifs <;> first | rfl | omega
      | some v =>
        simp only [checkCore, Occurences.min_value, Occurences.max_value]
        split_ifs <;> first | rfl | omega

/-- C1: for every `Occurences` variant over `I ∈ {u8,u16,u32,u64}` and every
count, `check(count)` returns `Ok` iff `min_value() ≤ count ≤ max_value()`
(with `max_value = I::MAX` for a `None` bound), and whenever it returns
`Err(OccurrencesError{min,max,found})` the field `found` is the original
count widened without truncation, including counts above `I::MAX`. -/
theorem check_ok_iff_in_bounds (wd : Bits) (occ : Occurences) (count : Nat)
    (h : occInBounds wd occ = true) :
    (occ.check wd count = CheckResult.ok ↔
      occ.min_value ≤ count ∧ count ≤ occ.max_value wd)
    ∧ (∀ mn mx fnd, occ.check wd count = CheckResult.err mn mx fnd →
        fnd = count) := by
  rw [check_eq_spec wd occ count h]
  constructor
  · split_ifs with hc
    · simp [hc]
    · simp [hc]
  · intro mn mx fnd hj
    split_ifs at hj
    rw [CheckResult.err.injEq] at hj
    exact hj.2.2.symm

/-- Witness for C1 at a concrete input: `OnceOrUpTo(Some 42)` over `u32`
accepts the count 7 and, at the count 43, reports the untruncated count. -/
theorem check_ok_iff_in_bounds_witness :
    occInBounds Bits.bit32 (Occurences.onceOrUpTo (Option.some 42)) = true
    ∧ ((Occurences.onceOrUpTo (Option.some 42)).check Bits.bit32 7 =
        CheckResult.ok ↔
      (Occurences.onceOrUpTo (Option.some 42)).min_value ≤ 7
      ∧ 7 ≤ (Occurences.onceOrUpTo (Option.some 42)).max_value Bits.bit32) :=
  ⟨by decide,
    (check_ok_iff_in_bounds Bits.bit32
      (Occurences.onceOrUpTo (Option.some 42)) 7 (by decide)).1⟩

/-- C10: `Occurences::check` never reaches the `expect` on `I::try_from`:
the early return rejecting counts above `I::MAX` dominates the conversion, so
every invocation terminates with `Ok` or `Err`, never a panic. -/
theorem check_never_panics (wd : Bits) (occ : Occurences) (count : Nat) :
    occ.check wd count ≠ CheckResult.panicked := by
  unfold Occurences.check
  split_ifs with hc
  · simp
  · have ht : tryFrom wd.max_value count = Option.some count := by
      unfold tryFrom
      rw [if_pos (by omega)]
    rw [ht]
    show checkCore occ wd count count ≠ CheckResult.panicked
    cases occ with
    | once => simp only [checkCore]; split_ifs <;> simp
    | noneOrOnce => simp only [checkCore]; split_ifs <;> simp
    | onceOrUpTo m =>
      cases m with
      | none => simp only [checkCore]; split_ifs <;> simp
      | some v => simp only [checkCore]; split_ifs <;> simp
    | noneOrUpTo m =>
      cases m with
      | none => simp only [checkCore]; simp
      | some v => simp only [checkCore]; split_ifs <;> simp

/-- Little-endian byte decomposition: `toLe k n` is the `k`-byte little-endian
encoding of `n` (as produced by `u64::strict_encode` for `k = 8`). -/
def toLe : Nat → Nat → List Nat
  | 0, _ => []
  | k + 1, n => n % 256 :: toLe k (n / 256)

/-- Little-endian byte recomposition, as performed by `u64::strict_decode`. -/
def fromLe : List Nat → Nat
  | [] => 0
  | b :: bs => b + 256 * fromLe bs

theorem toLe_length (k n : Nat) : (toLe k n).length = k := by
  induction k generalizing n with
  | zero => rfl
  | succ k ih => simp [toLe, ih]

theorem fromLe_toLe (k n : Nat) : fromLe (toLe k n) = n % 256 ^ k := by
  induction k generalizing n with
  | zero => simp [toLe, fromLe, Nat.mod_one]
  | succ k ih =>
    simp only [toLe, fromLe, ih]
    rw [pow_succ, mul_comm (256 ^ k) 256, Nat.mod_mul]

theorem take_toLe (n : Nat) : List.take 8 (toLe 8 n) = toLe 8 n :=
  List.take_of_length_le (by rw [toLe_length])

/-- Strict-encoding errors relevant to `Occurences::strict_decode`
(`Error::ValueOutOfRange` carries the range `0..I::MAX` — modelled by its
upper end — and the offending value as `u128`; `ioError` models a failed
read from the underlying stream). -/
inductive DecodeError
  | valueOutOfRange (rangeEnd found : Nat)
  | ioError
deriving DecidableEq

/-- Outcome of `Occurences::strict_decode`: a decoded value, a strict-encoding
error, or the reachable `panic!` on an unknown tag byte. -/
inductive DecodeResult
  | ok (occ : Occurences)
  | err (e : DecodeError)
  | panicked
deriving DecidableEq

/-- `Occurences::strict_encode` from `src/rgb/schema/types.rs`
(`impl_occurences!` macro): a tag byte followed by the maximum as a `u64` in
little-endian, where a `None` bound encodes as `I::MAX` and the `NoneOrOnce`
and `Once` variants carry a zero field. -/
def strict_encode (wd : Bits) : Occurences → List Nat
  | .noneOrOnce => 0x00 :: toLe 8 0
  | .once => 0x01 :: toLe 8 0
  | .noneOrUpTo m => 0xFE :: toLe 8 (m.getD wd.max_value)
  | .onceOrUpTo m => 0xFF :: toLe 8 (m.getD wd.max_value)

/-- Tag dispatch at the end of `Occurences::strict_decode`: known tags select
the variant, any other tag reaches `panic!`. -/
def decodeTag (tag : Nat) (m : Option Nat) : DecodeResult :=
  if tag = 0x00 then DecodeResult.ok Occurences.noneOrOnce
  else if tag = 0x01 then DecodeResult.ok Occurences.once
  else if tag = 0xFE then DecodeResult.ok (Occurences.noneOrUpTo m)
  else if tag = 0xFF then DecodeResult.ok (Occurences.onceOrUpTo m)
  else DecodeResult.panicked

/-- Body of `Occurences::strict_decode` after the tag byte and the `u64`
maximum have been read: the maximum is range-checked and mapped to
`Option<I>` before the tag is examined, so an out-of-range maximum errors
even for an unknown tag. -/
def decodeTagged (wd : Bits) (tag maxVal : Nat) : DecodeResult :=
  if maxVal < wd.max_value then decodeTag tag (Option.some maxVal)
  else if maxVal = wd.max_value then decodeTag tag Option.none
  else DecodeResult.err (DecodeError.valueOutOfRange wd.max_value maxVal)

/-- `Occurences::strict_decode` from `src/rgb/schema/types.rs`, reading from a
byte stream: one tag byte, then eight bytes of little-endian `u64` maximum
(bytes beyond the ninth are left unread). -/
def strict_decode (wd : Bits) : List Nat → DecodeResult
  | [] => DecodeResult.err DecodeError.ioError
  | b0 :: rest =>
    if 8 ≤ rest.length then decodeTagged wd b0 (fromLe (List.take 8 rest))
    else DecodeResult.err DecodeError.ioError

theorem decode_encode_tag (wd : Bits) (tag v : Nat) (hv : v < 256 ^ 8) :
    strict_decode wd (tag :: toLe 8 v) = decodeTagged wd tag v := by
  have hfl : fromLe (List.take 8 (toLe 8 v)) = v := by
    rw [take_toLe, fromLe_toLe, Nat.mod_eq_of_lt hv]
  simp [strict_decode, toLe_length, hfl]

/-- The stored bound of `occ` is not `Some I::MAX` (the one point where the
encoding is not injective). -/
def occBoundNeMax (wd : Bits) : Occurences → Bool
  | .onceOrUpTo (Option.some v) => v ≠ wd.max_value
  | .noneOrUpTo (Option.some v) => v ≠ wd.max_value
  | _ => true

/-- C5 counterexample: the round trip is not the identity on every value.
Encoding `NoneOrUpTo(Some(u8::MAX))` over `u8` and decoding it back yields
`NoneOrUpTo(None)`, a different value. -/
theorem encode_decode_not_id_at_some_max :
    strict_decode Bits.bit8
        (strict_encode Bits.bit8 (Occurences.noneOrUpTo (Option.some 255)))
      = DecodeResult.ok (Occurences.noneOrUpTo Option.none)
    ∧ Occurences.noneOrUpTo (Option.some 255)
      ≠ Occurences.noneOrUpTo Option.none := by
  constructor
  · decide
  · decide

/-- C5 (amended): `strict_encode` over `I ∈ {u8,u16,u32,u64}` produces exactly
9 bytes — tag `0x00`/`0x01` plus eight zero bytes for `NoneOrOnce`/`Once`,
tag `0xFE`/`0xFF` plus the maximum as `u64` little-endian for
`NoneOrUpTo`/`OnceOrUpTo` with a `None` bound encoding as `I::MAX` — and
`strict_decode` of `strict_encode x` returns `x` for every `x` whose bound is
not `Some I::MAX`, while a bound equal to `I::MAX` (in particular an encoded
`None`) decodes back to the `None` bound. -/
theorem strict_encode_decode_round_trip (wd : Bits) (occ : Occurences)
    (h : occInBounds wd occ = true) :
    (strict_encode wd occ).length = 9
    ∧ (occBoundNeMax wd occ = true →
        strict_decode wd (strict_encode wd occ) = DecodeResult.ok occ)
    ∧ strict_decode wd
          (strict_encode wd (Occurences.noneOrUpTo (Option.some wd.max_value)))
        = DecodeResult.ok (Occurences.noneOrUpTo Option.none)
    ∧ strict_decode wd
          (strict_encode wd (Occurences.onceOrUpTo (Option.some wd.max_value)))
        = DecodeResult.ok (Occurences.onceOrUpTo Option.none)
    ∧ strict_encode wd Occurences.noneOrOnce = 0x00 :: toLe 8 0
    ∧ strict_encode wd Occurences.once = 0x01 :: toLe 8 0
    ∧ (∀ m, strict_encode wd (Occurences.noneOrUpTo m)
        = 0xFE :: toLe 8 (m.getD wd.max_value))
    ∧ (∀ m, strict_encode wd (Occurences.onceOrUpTo m)
        = 0xFF :: toLe 8 (m.getD wd.max_value)) := by
  have h255 := Bits.le_max_value wd
  have hlt := Bits.max_value_lt wd
  refine ⟨?_, ?_, ?_, ?_, rfl, rfl, fun m => rfl, fun m => rfl⟩
  · cases occ <;> simp [strict_encode, toLe_length]
  · intro hne
    cases occ with
    | noneOrOnce =>
      have hc : (0:Nat) < wd.max_value := by omega
      rw [strict_encode, decode_encode_tag wd 0x00 0 (by omega)]
      simp [decodeTagged, decodeTag, hc]
    | once =>
      have hc : (0:Nat) < wd.max_value := by omega
      rw [strict_encode, decode_encode_tag wd 0x01 0 (by omega)]
      simp [decodeTagged, decodeTag, hc]
    | onceOrUpTo m =>
      cases m with
      | none =>
        rw [strict_encode, Option.getD_none,
          decode_encode_tag wd 0xFF wd.max_value (by omega)]
        simp [decodeTagged, decodeTag]
      | some v =>
        simp only [occInBounds, decide_eq_true_eq] at h
        simp only [occBoundNeMax, decide_eq_true_eq] at hne
        have hc : v < wd.max_value := by omega
        rw [strict_encode, Option.getD_some,
          decode_encode_tag wd 0xFF v (by omega)]
        simp [decodeTagged, decodeTag, hc]
    | noneOrUpTo m =>
      cases m with
      | none =>
        rw [strict_encode, Option.getD_none,
          decode_encode_tag wd 0xFE wd.max_value (by omega)]
        simp [decodeTagged, decodeTag]
      | some v =>
        simp only [occInBounds, decide_eq_true_eq] at h
        simp only [occBoundNeMax, decide_eq_true_eq] at hne
        have hc : v < wd.max_value := by omega
        rw [strict_encode, Option.getD_some,
          decode_encode_tag wd 0xFE v (by omega)]
        simp [decodeTagged, decodeTag, hc]
  · rw [strict_encode, Option.getD_some,
      decode_encode_tag wd 0xFE wd.max_value (by omega)]
    simp [decodeTagged, decodeTag]
  · rw [strict_encode, Option.getD_some,
      decode_encode_tag wd 0xFF wd.max_value (by omega)]
    simp [decodeTagged, decodeTag]

/-- Witness for C5 at a concrete input: `OnceOrUpTo(Some 42)` over `u8`
encodes to 9 bytes and round-trips. -/
theorem strict_encode_decode_round_trip_witness :
    occInBounds Bits.bit8 (Occurences.onceOrUpTo (Option.some 42)) = true
    ∧ occBoundNeMax Bits.bit8 (Occurences.onceOrUpTo (Option.some 42)) = true
    ∧ strict_decode Bits.bit8
        (strict_encode Bits.bit8 (Occurences.onceOrUpTo (Option.some 42)))
      = DecodeResult.ok (Occurences.onceOrUpTo (Option.some 42)) :=
  ⟨by decide, by decide,
    (strict_encode_decode_round_trip Bits.bit8
      (Occurences.onceOrUpTo (Option.some 42)) (by decide)).2.1 (by decide)⟩

/-- C6: decoding the 9 bytes with tag `0xFF` followed by the `u64`
little-endian value 255 as `Occurences<u64>` yields `OnceOrUpTo(Some(255))`,
not `OnceOrUpTo(None)`: a maximum equal to a narrower type's `MAX` but below
`u64::MAX` decodes to a `Some` bound. -/
theorem decode_cross_width_some :
    strict_decode Bits.bit64 [0xFF, 0xFF, 0, 0, 0, 0, 0, 0, 0]
      = DecodeResult.ok (Occurences.onceOrUpTo (Option.some 255)) := by
  decide

/-- C4 counterexample: the 9-byte input with unknown tag `0x02` and a valid
maximum field reaches the `panic!` in `Occurences::strict_decode` instead of
returning an error. -/
theorem decode_unknown_tag_panics_at_two :
    strict_decode Bits.bit8 [0x02, 0, 0, 0, 0, 0, 0, 0, 0]
      = DecodeResult.panicked := by
  decide

/-- C4 (amended): for every 9-byte input whose first byte is not one of
`0x00`, `0x01`, `0xFE`, `0xFF`, `Occurences::strict_decode` never succeeds:
it panics whenever the maximum field is within range for `I` — so the panic
is reachable from adversarial input — and returns `ValueOutOfRange` only
when the maximum field exceeds `I::MAX`. -/
theorem decode_unknown_tag_never_ok (wd : Bits) (b0 : Nat) (rest : List Nat)
    (h0 : b0 ≠ 0x00) (h1 : b0 ≠ 0x01) (h2 : b0 ≠ 0xFE) (h3 : b0 ≠ 0xFF)
    (hl : rest.length = 8) :
    (fromLe rest ≤ wd.max_value →
      strict_decode wd (b0 :: rest) = DecodeResult.panicked)
    ∧ (wd.max_value < fromLe rest →
      strict_decode wd (b0 :: rest)
        = DecodeResult.err
            (DecodeError.valueOutOfRange wd.max_value (fromLe rest))) := by
  have htake : List.take 8 rest = rest := List.take_of_length_le (by omega)
  constructor
  · intro hle
    simp only [strict_decode, hl, le_refl, if_pos, htake]
    unfold decodeTagged decodeTag
    split_ifs <;> first | rfl | omega
  · intro hgt
    simp only [strict_decode, hl, le_refl, if_pos, htake]
    unfold decodeTagged
    split_ifs <;> first | rfl | omega

/-- Witness for C4 (amended) at a concrete input: tag `0x02` with a zero
maximum panics. -/
theorem decode_unknown_tag_never_ok_witness :
    fromLe [0, 0, 0, 0, 0, 0, 0, 0] ≤ Bits.bit8.max_value
    ∧ strict_decode Bits.bit8 [0x02, 0, 0, 0, 0, 0, 0, 0, 0]
        = DecodeResult.panicked :=
  ⟨by decide,
    (decode_unknown_tag_never_ok Bits.bit8 0x02 [0, 0, 0, 0, 0, 0, 0, 0]
      (by decide) (by decide) (by decide) (by decide) (by decide)).1
      (by decide)⟩

/-- C9: decoding a 9-byte `Occurences<I>` input for `I ∈ {u8,u16,u32}` whose
tag byte is known but whose `u64` little-endian maximum strictly exceeds
`I::MAX` returns `ValueOutOfRange` carrying the offending value, rather than
truncating or succeeding. -/
theorem decode_out_of_range_max (wd : Bits) (tag : Nat) (rest : List Nat)
    (_hw : wd = Bits.bit8 ∨ wd = Bits.bit16 ∨ wd = Bits.bit32)
    (_ht : tag = 0x00 ∨ tag = 0x01 ∨ tag = 0xFE ∨ tag = 0xFF)
    (hl : rest.length = 8)
    (hv : wd.max_value < fromLe rest) :
    strict_decode wd (tag :: rest)
      = DecodeResult.err
          (DecodeError.valueOutOfRange wd.max_value (fromLe rest)) := by
  have htake : List.take 8 rest = rest := List.take_of_length_le (by omega)
  simp only [strict_decode, hl, le_refl, if_pos, htake]
  unfold decodeTagged
  split_ifs <;> first | rfl | omega

/-- Witness for C9 at a concrete input: tag `0xFE` with maximum 65535 over
`u8` errors with the offending value 65535. -/
theorem decode_out_of_range_max_witness :
    Bits.bit8.max_value < fromLe [0xFF, 0xFF, 0, 0, 0, 0, 0, 0]
    ∧ strict_decode Bits.bit8 [0xFE, 0xFF, 0xFF, 0, 0, 0, 0, 0, 0]
        = DecodeResult.err
            (DecodeError.valueOutOfRange Bits.bit8.max_value
              (fromLe [0xFF, 0xFF, 0, 0, 0, 0, 0, 0])) :=
  ⟨by decide,
    decode_out_of_range_max Bits.bit8 0xFE [0xFF, 0xFF, 0, 0, 0, 0, 0, 0]
      (Or.inl rfl) (by decide) (by decide) (by decide)⟩

/-- `Validity` from `src/validation/status.rs`. -/
inductive Validity
  | valid
  | validExceptEndpoints
  | unresolvedTransactions
  | invalid
deriving DecidableEq

/-- `Status` from `src/validation/status.rs`.  The element types (`Txid`,
`Failure`, `Warning`, `Info`) are abstract type parameters: neither
`AddAssign` nor `validity` inspects the elements, only the vectors. -/
structure Status (Txid Failure Warning Info : Type) where
  unresolved_txids : List Txid
  unmined_endpoint_txids : List Txid
  failures : List Failure
  warnings : List Warning
  info : List Info
deriving DecidableEq

/-- `impl AddAssign for Status` from `src/validation/status.rs`: each vector
of the right-hand side is appended to the corresponding vector of the left. -/
def Status.add_assign {T F W I : Type} (s rhs : Status T F W I) :
    Status T F W I where
  unresolved_txids := s.unresolved_txids ++ rhs.unresolved_txids
  unmined_endpoint_txids :=
    s.unmined_endpoint_txids ++ rhs.unmined_endpoint_txids
  failures := s.failures ++ rhs.failures
  warnings := s.warnings ++ rhs.warnings
  info := s.info ++ rhs.info

/-- `Status::default` (derived `Default`): all five vectors empty. -/
def Status.empty (T F W I : Type) : Status T F W I where
  unresolved_txids := []
  unmined_endpoint_txids := []
  failures := []
  warnings := []
  info := []

/-- `Status::validity` from `src/validation/status.rs`. -/
def Status.validity {T F W I : Type} (s : Status T F W I) : Validity :=
  if s.failures.isEmpty then
    if s.unmined_endpoint_txids.isEmpty then Validity.valid
    else Validity.validExceptEndpoints
  else if s.unresolved_txids.isEmpty then Validity.invalid
  else Validity.unresolvedTransactions

/-- C2: `Status::validity` follows the four-line truth table over the
emptiness of `failures`, `unmined_endpoint_txids` and `unresolved_txids`. -/
theorem status_validity_truth_table {T F W I : Type} (s : Status T F W I) :
    (s.failures = [] → s.unmined_endpoint_txids = [] →
      s.validity = Validity.valid)
    ∧ (s.failures = [] → s.unmined_endpoint_txids ≠ [] →
      s.validity = Validity.validExceptEndpoints)
    ∧ (s.failures ≠ [] → s.unresolved_txids = [] →
      s.validity = Validity.invalid)
    ∧ (s.failures ≠ [] → s.unresolved_txids ≠ [] →
      s.validity = Validity.unresolvedTransactions) := by
  unfold Status.validity
  refine ⟨?_, ?_, ?_, ?_⟩ <;> intro hf hx <;>
    simp [List.isEmpty_iff, hf, hx]

/-- Witness for C2 at a concrete input: a status with one failure and one
unresolved txid is judged `UnresolvedTransactions`. -/
theorem status_validity_truth_table_witness :
    (Status.mk [7] [] [3] [] [] : Status Nat Nat Nat Nat).validity
      = Validity.unresolvedTransactions :=
  (status_validity_truth_table
      (Status.mk [7] [] [3] [] [] : Status Nat Nat Nat Nat)).2.2.2
    (by decide) (by decide)

/-- C3 counterexample: `+=` concatenates vectors, so it is not commutative:
two statuses holding the single failures `0` and `1` concatenate to
different values in the two orders. -/
theorem status_add_not_commutative :
    Status.add_assign
        (Status.mk [] [] [0] [] [] : Status Nat Nat Nat Nat)
        (Status.mk [] [] [1] [] [])
      ≠ Status.add_assign (Status.mk [] [] [1] [] [])
          (Status.mk [] [] [0] [] []) := by
  decide

/-- C3 (amended): `Status` under `+=` concatenation with the empty status is
a monoid — associative with two-sided identity — but not commutative. -/
theorem status_monoid {T F W I : Type} (a b c : Status T F W I) :
    Status.add_assign (Status.add_assign a b) c
      = Status.add_assign a (Status.add_assign b c)
    ∧ Status.add_assign a (Status.empty T F W I) = a
    ∧ Status.add_assign (Status.empty T F W I) a = a := by
  cases a
  cases b
  cases c
  simp [Status.add_assign, Status.empty, List.append_assoc]

/-- `ConsignmentApi` from `src/validation/consignment.rs`, restricted to the
two lookups re-checked by `CheckedConsignment`.  Entity and id types are
abstract; `opIdOf`/`bundleIdOf` stand for the recomputation `op.id()` /
`bundle.bundle_id()` performed by the adaptor. -/
structure ConsignmentApi (OpId Op BundleId Bundle : Type) where
  operation : OpId → Option Op
  bundle : BundleId → Option Bundle

/-- `CheckedConsignment::operation` from `src/validation/consignment.rs`:
the underlying lookup filtered by `op.id() == opid`. -/
def checked_operation {OpId Op BundleId Bundle : Type} [DecidableEq OpId]
    (opIdOf : Op → OpId) (c : ConsignmentApi OpId Op BundleId Bundle)
    (opid : OpId) : Option Op :=
  (c.operation opid).filter (fun op => opIdOf op = opid)

/-- `CheckedConsignment::bundle` from `src/validation/consignment.rs`:
the underlying lookup filtered by `b.bundle_id() == bundle_id`. -/
def checked_bundle {OpId Op BundleId Bundle : Type} [DecidableEq BundleId]
    (bundleIdOf : Bundle → BundleId)
    (c : ConsignmentApi OpId Op BundleId Bundle)
    (bundle_id : BundleId) : Option Bundle :=
  (c.bundle bundle_id).filter (fun b => bundleIdOf b = bundle_id)

/-- C7: for every underlying provider, `CheckedConsignment::operation`
returns `None` whenever the provider returns an operation whose recomputed
id differs from the requested one and returns the operation unchanged when
the ids agree; likewise for `CheckedConsignment::bundle`. -/
theorem checked_consignment_filters {OpId Op BundleId Bundle : Type}
    [DecidableEq OpId] [DecidableEq BundleId]
    (opIdOf : Op → OpId) (bundleIdOf : Bundle → BundleId)
    (c : ConsignmentApi OpId Op BundleId Bundle)
    (opid : OpId) (bid : BundleId) (op : Op) (b : Bundle) :
    (c.operation opid = Option.some op → opIdOf op ≠ opid →
      checked_operation opIdOf c opid = Option.none)
    ∧ (c.operation opid = Option.some op → opIdOf op = opid →
      checked_operation opIdOf c opid = Option.some op)
    ∧ (c.bundle bid = Option.some b → bundleIdOf b ≠ bid →
      checked_bundle bundleIdOf c bid = Option.none)
    ∧ (c.bundle bid = Option.some b → bundleIdOf b = bid →
      checked_bundle bundleIdOf c bid = Option.some b) := by
  refine ⟨?_, ?_, ?_, ?_⟩ <;> intro hsome hid <;>
    simp [checked_operation, checked_bundle, hsome, Option.filter, hid]

/-- A concrete lying provider over `Nat` ids: every operation lookup answers
with the operation `2` and every bundle lookup with the bundle `5`. -/
def lyingProvider : ConsignmentApi Nat Nat Nat Nat :=
  ConsignmentApi.mk (fun _ => Option.some 2) (fun _ => Option.some 5)

/-- Witness for C7 at a concrete input: the lying provider answers the
request for id 1 with an operation whose recomputed id is 2, and the checked
adaptor filters it to `None`. -/
theorem checked_consignment_filters_witness :
    checked_operation (fun op => op) lyingProvider 1 = Option.none :=
  (checked_consignment_filters (fun op => op) (fun b => b)
    lyingProvider 1 1 2 5).1 rfl (by decide)

/-- `dbc::Anchor` as used by `AnchorSet` in `src/contract/anchor.rs`: a
witness txid together with an MPC proof and a DBC proof, both abstract here
since `AnchorSet::txid` only reads the `txid` field. -/
structure DbcAnchor (Txid P D : Type) where
  txid : Txid
  mpc_proof : P
  dbc_proof : D

/-- `AnchorSet` from `src/contract/anchor.rs`: tapret, opret, or both. -/
inductive AnchorSet (Txid P Tapret Opret : Type)
  | taptet (a : DbcAnchor Txid P Tapret)
  | opret (a : DbcAnchor Txid P Opret)
  | dual (tapret : DbcAnchor Txid P Tapret) (opret : DbcAnchor Txid P Opret)

/-- `AnchorSet::txid` from `src/contract/anchor.rs`: the inner txid for the
single variants, the shared txid for a `Dual` whose halves agree, `None`
otherwise. -/
def AnchorSet.txid {Txid P Tapret Opret : Type} [DecidableEq Txid] :
    AnchorSet Txid P Tapret Opret → Option Txid
  | .taptet a => Option.some a.txid
  | .opret a => Option.some a.txid
  | .dual t o =>
    if t.txid = o.txid then Option.some t.txid else Option.none

/-- C8: `AnchorSet::txid` returns `Some` of the inner txid for the `Taptet`
and `Opret` variants, `Some` of the shared txid for a `Dual` whose halves
carry equal txids, and `None` for a `Dual` whose txids differ. -/
theorem anchor_set_txid_cases {Txid P Tapret Opret : Type}
    [DecidableEq Txid] (a : DbcAnchor Txid P Tapret)
    (a2 : DbcAnchor Txid P Opret) (t : DbcAnchor Txid P Tapret)
    (o : DbcAnchor Txid P Opret) :
    (AnchorSet.txid (@AnchorSet.taptet Txid P Tapret Opret a)
      = Option.some a.txid)
    ∧ (AnchorSet.txid (@AnchorSet.opret Txid P Tapret Opret a2)
      = Option.some a2.txid)
    ∧ (t.txid = o.txid →
      AnchorSet.txid (AnchorSet.dual t o) = Option.some t.txid)
    ∧ (t.txid ≠ o.txid →
      AnchorSet.txid (AnchorSet.dual t o) = Option.none) := by
  refine ⟨rfl, rfl, ?_, ?_⟩ <;> intro h <;> simp [AnchorSet.txid, h]

/-- Witness for C8 at concrete inputs: a dual anchor over txids 3 and 3
yields `Some 3`; over 3 and 4 it yields `None`. -/
theorem anchor_set_txid_cases_witness :
    AnchorSet.txid
        (@AnchorSet.dual Nat Unit Unit Unit
          (DbcAnchor.mk 3 () ()) (DbcAnchor.mk 3 () ()))
      = Option.some 3
    ∧ AnchorSet.txid
        (@AnchorSet.dual Nat Unit Unit Unit
          (DbcAnchor.mk 3 () ()) (DbcAnchor.mk 4 () ()))
      = Option.none :=
  ⟨(anchor_set_txid_cases (DbcAnchor.mk 3 () ()) (DbcAnchor.mk 3 () ())
      (DbcAnchor.mk 3 () ()) (DbcAnchor.mk 3 () ())).2.2.1 rfl,
    (anchor_set_txid_cases (DbcAnchor.mk 3 () ()) (DbcAnchor.mk 4 () ())
      (DbcAnchor.mk 3 () ()) (DbcAnchor.mk 4 () ())).2.2.2 (by decide)⟩

end RgbCore
